import Mathlib

/-!
Verification of the bayaan asynchronous structured logging library.

The development shallowly embeds the Go sources:

* the channel-based logger (levels, fields, sinks, the bounded entry
  queue, the single worker goroutine, `writeLog`, `log`, `Close`, `With`,
  the global facade `Setup` / `SetLevel` / `GetLevel`), and
* the synchronous JSON logger variant (its field-merge step in `log`).

Go maps from string keys to values are embedded as association lists with
Go map-assignment semantics; the channel is a FIFO list with the sourcefile
capacity of 1000; the worker and the producers are modelled by a small-step
transition system over an explicit system state, with ghost fields
recording the accepted and the processed entries in order.
-/

namespace Bayaan

/-- Severity levels, in declaration order of the Go `const` block. -/
inductive LoggerLevel where
  | trace
  | debug
  | info
  | warn
  | error
  | fatal
  | panicLvl
deriving DecidableEq, Repr

/-- Numeric rank of a level: the value of the Go `iota` constant. -/
def LoggerLevel.rank : LoggerLevel → Nat
  | .trace => 0
  | .debug => 1
  | .info => 2
  | .warn => 3
  | .error => 4
  | .fatal => 5
  | .panicLvl => 6

/-- Textual name of a level, the Go `String()` method. -/
def LoggerLevel.name : LoggerLevel → String
  | .trace => "TRACE"
  | .debug => "DEBUG"
  | .info => "INFO"
  | .warn => "WARN"
  | .error => "ERROR"
  | .fatal => "FATAL"
  | .panicLvl => "PANIC"

/-- ANSI color wrapper per level, the Go `colors` map. -/
def colors : LoggerLevel → String
  | .trace => "\x1b[36m"
  | .debug => "\x1b[34m"
  | .info => "\x1b[32m"
  | .warn => "\x1b[33m"
  | .error => "\x1b[31m"
  | .fatal => "\x1b[35m"
  | .panicLvl => "\x1b[95m"

/-- The ANSI reset sequence, the Go constant `Reset`. -/
def ResetColor : String := "\x1b[0m"

/-- Field values: the embedding of Go `interface\x7b\x7d` restricted to the
value shapes the claims exercise. -/
inductive Value where
  | int : Int → Value
  | str : String → Value
deriving DecidableEq, Repr

/-- Rendering of a value, the Go `fmt` verb `%v`. -/
def Value.render : Value → String
  | .int n => toString n
  | .str s => s

/-- Go `Fields = map[string]interface\x7b\x7d`, embedded as an association
list in iteration order; map assignment keeps keys unique. -/
abbrev Fields := List (String × Value)

/-- Go map assignment `m[k] = v`: replace the binding if the key is
present, otherwise append a new binding. -/
def Fields.set : Fields → String → Value → Fields
  | [], k, v => [(k, v)]
  | p :: rest, k, v =>
      if p.1 == k then (k, v) :: rest else p :: Fields.set rest k v

/-- Go map read `m[k]`. -/
def Fields.lookup : Fields → String → Option Value
  | [], _ => none
  | p :: rest, k => if p.1 == k then some p.2 else Fields.lookup rest k

/-- The Go idiom `for k, v := range overrides \x7b base[k] = v \x7d`. -/
def Fields.mergeInto (base : Fields) (overrides : Fields) : Fields :=
  overrides.foldl (fun acc kv => acc.set kv.1 kv.2) base

/-- One pending log record, the Go `logEntry` struct. -/
structure logEntry where
  level : LoggerLevel
  msg : String
  fields : Fields
deriving DecidableEq, Repr

/-- A sink: an opaque writer identity plus the color flag, the Go `output`
struct. -/
structure output where
  writer : Nat
  useColor : Bool
deriving DecidableEq, Repr

/-- Configuration part of the Go `Logger` struct: level, sinks, time
format and default fields. The channel and the done signal live in the
system state below. -/
structure LoggerCfg where
  level : LoggerLevel
  outputs : List output
  timeFormat : String
  fields : Fields
deriving DecidableEq, Repr

/-- The writer identity of `os.Stdout`. -/
def stdoutWriter : Nat := 0

/-- The logger produced by `NewLogger` before options run: level Info, a
colored stdout sink, the default time format, empty fields. -/
def defaultLoggerCfg : LoggerCfg :=
  { level := .info
    outputs := [{ writer := stdoutWriter, useColor := true }]
    timeFormat := "2006-01-02 15:04:05"
    fields := [] }

/-- Constructor options, the Go `LoggerOption` closures. -/
inductive LoggerOption where
  | withLevel (level : LoggerLevel)
  | withOutput (writer : Nat) (additive : Bool) (useColor : Bool)
  | withTimeFormat (format : String)
  | withFields (fields : Fields)
deriving DecidableEq, Repr

/-- Application of one option to a logger, the bodies of `WithLevel`,
`WithOutput`, `WithTimeFormat` and `WithFields`. -/
def applyOption (l : LoggerCfg) (o : LoggerOption) : LoggerCfg :=
  match o with
  | .withLevel level => { l with level := level }
  | .withOutput w additive useColor =>
      if additive then
        { l with outputs := l.outputs ++ [{ writer := w, useColor := useColor }] }
      else
        { l with outputs := [{ writer := w, useColor := useColor }] }
  | .withTimeFormat f => { l with timeFormat := f }
  | .withFields fs => { l with fields := Fields.mergeInto l.fields fs }

/-- The configuration built by `NewLogger(options...)`: the defaults with
every option applied in order. -/
def NewLoggerCfg (options : List LoggerOption) : LoggerCfg :=
  options.foldl applyOption defaultLoggerCfg

/-- The separator written between record lines by `writeLog`: a newline
followed by `len(entry.level.String()) + 2` spaces. -/
def spaceSep (entry : logEntry) : String :=
  "\n" ++ String.mk (List.replicate (entry.level.name.length + 2) ' ')

/-- One rendered field line fragment `k: v ` of the `writeLog` loops. -/
def fieldLine (kv : String × Value) : String :=
  kv.1 ++ ": " ++ kv.2.render ++ " "

/-- The body string built by `writeLog`: header, time line, then one line
per default field followed by one line per entry field, in order. The
formatted current time is passed in as `now`. -/
def renderBody (cfg : LoggerCfg) (now : String) (entry : logEntry) : String :=
  ((cfg.fields ++ entry.fields).map fieldLine).foldl
    (fun acc line => acc ++ spaceSep entry ++ line)
    (entry.level.name ++ ": " ++ entry.msg ++ spaceSep entry ++ "time: " ++ now)

/-- The writes performed by `Logger.writeLog` for one entry: nothing when
the entry level is below the logger level, otherwise one write per sink,
color-wrapped when the sink asks for it. -/
def writeLog (cfg : LoggerCfg) (now : String) (entry : logEntry) :
    List (Nat × String) :=
  if entry.level.rank < cfg.level.rank then []
  else
    cfg.outputs.map (fun out =>
      let logLine := renderBody cfg now entry ++ "\n"
      (out.writer,
        if out.useColor then colors entry.level ++ logLine ++ ResetColor
        else logLine))

/-- Capacity of the buffered log channel created by `NewLogger`. -/
def channelCapacity : Nat := 1000

/-- State of one logger family (a root logger plus the derived loggers
sharing its channel): the channel buffer, the close and done flags, the
observable writes and stderr diagnostics, a producer-panic flag, and ghost
lists of the entries accepted and processed, in order. -/
structure Sys where
  queue : List logEntry
  closed : Bool
  done : Bool
  writes : List (Nat × String)
  stderrLines : List String
  panicked : Bool
  accepted : List logEntry
  processed : List logEntry
deriving DecidableEq, Repr

/-- The state right after `NewLogger` returns. -/
def initSys : Sys :=
  { queue := [], closed := false, done := false, writes := [],
    stderrLines := [], panicked := false, accepted := [], processed := [] }

/-- Atomic events of the pipeline: a producer calling `log` (the select
with a default case), the worker taking one step of its range loop, and
`Close` closing the channel. -/
inductive Action where
  | enq (entry : logEntry)
  | work
  | closeChan
deriving DecidableEq, Repr

/-- One transition. `enq` on a closed channel is the Go panic of a send on
a closed channel; with room it appends; when full it drops the entry and
writes the warning line to stderr synchronously. `work` processes the
front entry through `writeLog` with the configuration of the root logger
`cfg` (the worker goroutine closes over the logger passed to `NewLogger`),
or exits the range loop and closes `done` once the channel is closed and
drained. `closeChan` is `close(l.logChan)`. -/
def step (cfg : LoggerCfg) (now : String) (s : Sys) (a : Action) : Sys :=
  if s.panicked then s
  else
    match a with
    | .enq e =>
        if s.closed then { s with panicked := true }
        else if s.queue.length < channelCapacity then
          { s with queue := s.queue ++ [e], accepted := s.accepted ++ [e] }
        else
          { s with stderrLines := s.stderrLines ++
              ["Warning: Logger channel full, dropping message: " ++ e.msg] }
    | .work =>
        match s.queue with
        | [] => if s.closed then { s with done := true } else s
        | e :: rest =>
            { s with queue := rest,
                     processed := s.processed ++ [e],
                     writes := s.writes ++ writeLog cfg now e }
    | .closeChan => { s with closed := true }

/-- A run of the pipeline: the steps of an interleaving, in order. -/
def run (cfg : LoggerCfg) (now : String) (s : Sys) (as : List Action) : Sys :=
  as.foldl (fun t a => step cfg now t a) s

/-- Derivation of a logger, the Go `Logger.With`: a fresh configuration
copying level, outputs and time format, whose fields are a fresh copy of
the parent fields with the overrides merged in. The derived logger shares
the channel of the parent, so its entries go through the same `Sys`. -/
def LoggerCfg.With (l : LoggerCfg) (fields : Fields) : LoggerCfg :=
  { level := l.level
    outputs := l.outputs
    timeFormat := l.timeFormat
    fields := Fields.mergeInto (Fields.mergeInto [] l.fields) fields }

/-- Identity-and-heap view of field maps, used to state that `With` never
shares a mutable map: `store` gives the contents of each allocated map and
`next` is the next fresh identity. -/
structure FieldsHeap where
  next : Nat
  store : Nat → Fields

/-- The Go `Logger.With` seen on the heap of field maps: allocate a fresh
map, copy the parent entries into it, then merge the overrides into the
fresh map; the parent map is only read. Returns the new heap and the
identity of the fresh map. -/
def FieldsHeap.withAlloc (h : FieldsHeap) (parentId : Nat) (overrides : Fields) :
    FieldsHeap × Nat :=
  let newFields := Fields.mergeInto (Fields.mergeInto [] (h.store parentId)) overrides
  ({ next := h.next + 1,
     store := fun i => if i = h.next then newFields else h.store i },
   h.next)

/-- One installed global logger: its configuration plus the identity of
the channel `NewLogger` created for it. -/
structure GlobalLogger where
  cfg : LoggerCfg
  queueId : Nat
deriving DecidableEq, Repr

/-- The package-level state around `var defaultLogger *Logger`: `none`
models the nil pointer; `nextQueue` numbers the channels `NewLogger`
allocates. -/
structure GlobalSt where
  current : Option GlobalLogger
  nextQueue : Nat
deriving DecidableEq, Repr

/-- The state at package initialization: `defaultLogger` is nil. -/
def emptyGlobal : GlobalSt := { current := none, nextQueue := 0 }

/-- The global `SetLevel`: `defaultLogger = NewLogger(WithLevel(level))`,
a brand-new logger with default configuration except the level, bound to a
fresh channel. -/
def SetLevel (g : GlobalSt) (level : LoggerLevel) : GlobalSt :=
  { current := some { cfg := NewLoggerCfg [.withLevel level],
                      queueId := g.nextQueue },
    nextQueue := g.nextQueue + 1 }

/-- The global `GetLevel`: read the level of the current instance; `none`
models the nil-pointer panic when `defaultLogger` is nil. -/
def GetLevel (g : GlobalSt) : Option LoggerLevel :=
  g.current.map (fun l => l.cfg.level)

/-- Environment values `Setup` reads when called without options: the
`APP_NAME` and `APP_ENV` variables, and the sink obtained from `LOG_FILE`
when it is set and the file opens. -/
structure Env where
  appName : String
  appEnv : String
  logFileSink : Option Nat
deriving DecidableEq, Repr

/-- The option list `Setup` builds when it is called with no options. -/
def setupDefaultOptions (env : Env) : List LoggerOption :=
  let base : List LoggerOption :=
    [.withLevel .info,
     .withTimeFormat "2006-01-02 15:04:05",
     .withOutput stdoutWriter false true,
     .withFields [("app", Value.str env.appName), ("env", Value.str env.appEnv)]]
  match env.logFileSink with
  | some w => base ++ [.withOutput w true false]
  | none => base

/-- The global `Setup`: default the options when none are given, close the
previous instance when one exists, then install `NewLogger(options...)` on
a fresh channel. The returned flag records whether a previous instance was
closed. -/
def Setup (env : Env) (g : GlobalSt) (options : List LoggerOption) :
    GlobalSt × Bool :=
  let options := if options.length = 0 then setupDefaultOptions env else options
  let closedPrevious := g.current.isSome
  ({ current := some { cfg := NewLoggerCfg options, queueId := g.nextQueue },
     nextQueue := g.nextQueue + 1 },
   closedPrevious)

/-- The global `Trace(msg, fields)`: `defaultLogger.Trace(msg, fields)`.
When `defaultLogger` is nil the method call dereferences nil and panics,
modelled by `none`; otherwise it is one `enq` step on the state of the
installed instance. -/
def globalTrace (g : GlobalSt) (now : String) (s : Sys) (msg : String)
    (fields : Fields) : Option Sys :=
  match g.current with
  | none => none
  | some l =>
      some (step l.cfg now s (.enq { level := .trace, msg := msg, fields := fields }))

/-- The field merge of the synchronous JSON logger variant
(`Logger.log` in logger.go): copy the default fields, overlay the per-call
fields, then assign the system keys `timestamp`, `level`, `message` and,
when the call site is known, `caller`. -/
def mergeLogFields (defaults : Fields) (fields : Fields) (timestamp : String)
    (levelName : String) (msg : String) (caller : Option String) : Fields :=
  let mergedFields := Fields.mergeInto (Fields.mergeInto [] defaults) fields
  let mergedFields := mergedFields.set "timestamp" (Value.str timestamp)
  let mergedFields := mergedFields.set "level" (Value.str levelName)
  let mergedFields := mergedFields.set "message" (Value.str msg)
  match caller with
  | some c => mergedFields.set "caller" (Value.str c)
  | none => mergedFields

/-! Invariant of the pipeline: the processed entries followed by the
queued ones are exactly the accepted entries in acceptance order, the
writes are the `writeLog` output of the processed entries in order, and
once the worker is done the queue is empty and the channel closed. -/

/-- Run invariant of a logger family. -/
def SysInv (cfg : LoggerCfg) (now : String) (s : Sys) : Prop :=
  s.processed ++ s.queue = s.accepted ∧
  s.writes = s.processed.foldl (fun acc e => acc ++ writeLog cfg now e) [] ∧
  (s.done = true → s.queue = [] ∧ s.closed = true)

theorem sysInv_init (cfg : LoggerCfg) (now : String) : SysInv cfg now initSys := by
  refine ⟨rfl, rfl, ?_⟩
  intro h
  simp [initSys] at h

/-! Equations of `step`, one per source branch. -/

theorem step_panicked (cfg : LoggerCfg) (now : String) (s : Sys) (a : Action)
    (hp : s.panicked = true) : step cfg now s a = s := by
  simp [step, hp]

theorem step_enq_closed (cfg : LoggerCfg) (now : String) (s : Sys) (e : logEntry)
    (hp : s.panicked = false) (hc : s.closed = true) :
    step cfg now s (.enq e) = { s with panicked := true } := by
  simp [step, hp, hc]

theorem step_enq_room (cfg : LoggerCfg) (now : String) (s : Sys) (e : logEntry)
    (hp : s.panicked = false) (hc : s.closed = false)
    (hlen : s.queue.length < channelCapacity) :
    step cfg now s (.enq e)
      = { s with queue := s.queue ++ [e], accepted := s.accepted ++ [e] } := by
  simp [step, hp, hc, hlen]

theorem step_enq_full (cfg : LoggerCfg) (now : String) (s : Sys) (e : logEntry)
    (hp : s.panicked = false) (hc : s.closed = false)
    (hlen : ¬ s.queue.length < channelCapacity) :
    step cfg now s (.enq e)
      = { s with stderrLines := s.stderrLines ++
            ["Warning: Logger channel full, dropping message: " ++ e.msg] } := by
  simp [step, hp, hc, hlen]

theorem step_work_nil_closed (cfg : LoggerCfg) (now : String) (s : Sys)
    (hp : s.panicked = false) (hq : s.queue = []) (hc : s.closed = true) :
    step cfg now s .work = { s with done := true } := by
  simp [step, hp, hq, hc]

theorem step_work_nil_open (cfg : LoggerCfg) (now : String) (s : Sys)
    (hp : s.panicked = false) (hq : s.queue = []) (hc : s.closed = false) :
    step cfg now s .work = s := by
  simp [step, hp, hq, hc]

theorem step_work_cons (cfg : LoggerCfg) (now : String) (s : Sys) (e : logEntry)
    (rest : List logEntry) (hp : s.panicked = false) (hq : s.queue = e :: rest) :
    step cfg now s .work
      = { s with queue := rest, processed := s.processed ++ [e],
                 writes := s.writes ++ writeLog cfg now e } := by
  simp [step, hp, hq]

theorem step_closeChan (cfg : LoggerCfg) (now : String) (s : Sys)
    (hp : s.panicked = false) :
    step cfg now s .closeChan = { s with closed := true } := by
  simp [step, hp]

theorem sysInv_step (cfg : LoggerCfg) (now : String) (s : Sys) (a : Action)
    (h : SysInv cfg now s) : SysInv cfg now (step cfg now s a) := by
  obtain ⟨h1, h2, h3⟩ := h
  cases hp : s.panicked with
  | true =>
      rw [step_panicked cfg now s a hp]
      exact ⟨h1, h2, h3⟩
  | false =>
      cases a with
      | enq e =>
          cases hc : s.closed with
          | true =>
              rw [step_enq_closed cfg now s e hp hc]
              exact ⟨h1, h2, h3⟩
          | false =>
              by_cases hlen : s.queue.length < channelCapacity
              · rw [step_enq_room cfg now s e hp hc hlen]
                refine ⟨?_, h2, ?_⟩
                · show s.processed ++ (s.queue ++ [e]) = s.accepted ++ [e]
                  rw [← List.append_assoc, h1]
                · intro hd
                  have hcl := (h3 hd).2
                  rw [hc] at hcl
                  exact absurd hcl (by decide)
              · rw [step_enq_full cfg now s e hp hc hlen]
                exact ⟨h1, h2, h3⟩
      | work =>
          cases hq : s.queue with
          | nil =>
              cases hc : s.closed with
              | true =>
                  rw [step_work_nil_closed cfg now s hp hq hc]
                  exact ⟨h1, h2, fun _ => ⟨hq, hc⟩⟩
              | false =>
                  rw [step_work_nil_open cfg now s hp hq hc]
                  exact ⟨h1, h2, h3⟩
          | cons e rest =>
              rw [step_work_cons cfg now s e rest hp hq]
              refine ⟨?_, ?_, ?_⟩
              · show s.processed ++ [e] ++ rest = s.accepted
                rw [hq] at h1
                rw [List.append_assoc]
                exact h1
              · show s.writes ++ writeLog cfg now e
                  = (s.processed ++ [e]).foldl
                      (fun acc e => acc ++ writeLog cfg now e) []
                rw [h2, List.foldl_append]
                simp
              · intro hd
                have hqe := (h3 hd).1
                rw [hq] at hqe
                exact absurd hqe (by simp)
      | closeChan =>
          rw [step_closeChan cfg now s hp]
          exact ⟨h1, h2, fun hd => ⟨(h3 hd).1, rfl⟩⟩

theorem sysInv_run (cfg : LoggerCfg) (now : String) (s : Sys) (as : List Action)
    (h : SysInv cfg now s) : SysInv cfg now (run cfg now s as) := by
  induction as generalizing s with
  | nil => exact h
  | cons a rest ih => exact ih (step cfg now s a) (sysInv_step cfg now s a h)

/-! Lookup lemmas for the Go map embedding. -/

theorem Fields.lookup_set_self (m : Fields) (k : String) (v : Value) :
    (m.set k v).lookup k = some v := by
  induction m with
  | nil => simp [Fields.set, Fields.lookup]
  | cons p rest ih =>
      by_cases h : (p.1 == k) = true
      · simp [Fields.set, Fields.lookup, h]
      · simp only [Bool.not_eq_true] at h
        simp [Fields.set, Fields.lookup, h, ih]

theorem Fields.lookup_set_ne (m : Fields) (k kq : String) (v : Value)
    (h : (k == kq) = false) : (m.set k v).lookup kq = m.lookup kq := by
  induction m with
  | nil => simp [Fields.set, Fields.lookup, h]
  | cons p rest ih =>
      by_cases hp : (p.1 == k) = true
      · have hpk : p.1 = k := eq_of_beq hp
        simp [Fields.set, Fields.lookup, hp, hpk, h]
      · simp only [Bool.not_eq_true] at hp
        simp [Fields.set, Fields.lookup, hp, ih]

theorem Fields.lookup_mergeInto_not_mem (base ov : Fields) (k : String)
    (h : ∀ q ∈ ov, (q.1 == k) = false) :
    (Fields.mergeInto base ov).lookup k = base.lookup k := by
  induction ov generalizing base with
  | nil => rfl
  | cons p rest ih =>
      show (Fields.mergeInto (base.set p.1 p.2) rest).lookup k = base.lookup k
      rw [ih (base.set p.1 p.2) (fun q hq => h q (List.mem_cons_of_mem p hq))]
      exact Fields.lookup_set_ne base p.1 k p.2 (h p (List.mem_cons_self p rest))

theorem Fields.lookup_mergeInto_mem (base ov : Fields) (k : String) (v : Value)
    (hv : ov.lookup k = some v) (hnd : (ov.map Prod.fst).Nodup) :
    (Fields.mergeInto base ov).lookup k = some v := by
  induction ov generalizing base with
  | nil => simp [Fields.lookup] at hv
  | cons p rest ih =>
      show Fields.lookup (Fields.mergeInto (Fields.set base p.1 p.2) rest) k = some v
      have hnd0 : (p.1 :: rest.map Prod.fst).Nodup := by simpa using hnd
      have hnd' := List.nodup_cons.mp hnd0
      by_cases hp : (p.1 == k) = true
      · have hk : p.1 = k := eq_of_beq hp
        have hv2 : p.2 = v := by
          have hx := hv
          simp [Fields.lookup, hp] at hx
          exact hx
        have hnotin : ∀ q ∈ rest, (q.1 == k) = false := by
          intro q hq
          cases hb : (q.1 == k) with
          | false => rfl
          | true =>
              have hqk : q.1 = k := eq_of_beq hb
              have hmem : p.1 ∈ rest.map Prod.fst := by
                rw [hk, ← hqk]
                exact List.mem_map_of_mem Prod.fst hq
              exact absurd hmem hnd'.1
        rw [Fields.lookup_mergeInto_not_mem _ _ _ hnotin, ← hk, ← hv2]
        exact Fields.lookup_set_self base p.1 p.2
      · simp only [Bool.not_eq_true] at hp
        have hv' : Fields.lookup rest k = some v := by
          simpa [Fields.lookup, hp] using hv
        exact ih (Fields.set base p.1 p.2) hv' hnd'.2

theorem set_done_eq_self (s : Sys) (h : s.done = true) :
    ({ s with done := true } : Sys) = s := by
  cases s
  simp_all

/-- Claim C1: for every Logger, if K entries have been accepted into the
queue before `close()` is invoked, then `close()` returns only after all K
entries have been rendered and written to every sink, after which the
worker has terminated and the Logger is inert. Formally: in any
interleaving whose final state has `done = true` (the `<-l.done` in
`Close` has returned), the queue is drained, the channel is closed, the
processed entries are exactly the accepted ones, the writes are the
`writeLog` fan-out of every accepted entry in order, and a further worker
step changes nothing. -/
theorem close_drains_fully (cfg : LoggerCfg) (now : String) (as : List Action)
    (h : (run cfg now initSys as).done = true) :
    (run cfg now initSys as).queue = [] ∧
    (run cfg now initSys as).closed = true ∧
    (run cfg now initSys as).processed = (run cfg now initSys as).accepted ∧
    (run cfg now initSys as).writes
      = (run cfg now initSys as).accepted.foldl
          (fun acc e => acc ++ writeLog cfg now e) [] ∧
    step cfg now (run cfg now initSys as) .work = run cfg now initSys as := by
  obtain ⟨h1, h2, h3⟩ := sysInv_run cfg now initSys as (sysInv_init cfg now)
  obtain ⟨hq, hc⟩ := h3 h
  have hpa : (run cfg now initSys as).processed = (run cfg now initSys as).accepted := by
    rw [hq, List.append_nil] at h1
    exact h1
  refine ⟨hq, hc, hpa, ?_, ?_⟩
  · rw [h2, hpa]
  · cases hpn : (run cfg now initSys as).panicked with
    | true => exact step_panicked cfg now _ .work hpn
    | false =>
        rw [step_work_nil_closed cfg now _ hpn hq hc]
        exact set_done_eq_self _ h

/-- Concrete trace for the witness of C1: two accepted entries, then
`Close`, then the worker drains and exits. -/
def traceC1 : List Action :=
  [.enq { level := .info, msg := "one", fields := [] },
   .enq { level := .warn, msg := "two", fields := [] },
   .closeChan, .work, .work, .work]

theorem close_drains_fully_witness :
    (run defaultLoggerCfg "T" initSys traceC1).done = true ∧
    ((run defaultLoggerCfg "T" initSys traceC1).queue = [] ∧
     (run defaultLoggerCfg "T" initSys traceC1).closed = true ∧
     (run defaultLoggerCfg "T" initSys traceC1).processed
       = (run defaultLoggerCfg "T" initSys traceC1).accepted ∧
     (run defaultLoggerCfg "T" initSys traceC1).writes
       = (run defaultLoggerCfg "T" initSys traceC1).accepted.foldl
           (fun acc e => acc ++ writeLog defaultLoggerCfg "T" e) [] ∧
     step defaultLoggerCfg "T" (run defaultLoggerCfg "T" initSys traceC1) .work
       = run defaultLoggerCfg "T" initSys traceC1) :=
  ⟨rfl, close_drains_fully defaultLoggerCfg "T" traceC1 rfl⟩

/-- Claim C2: a leveled logging call never blocks the caller: with free
capacity the entry is accepted into the queue, and on a full queue the
entry is permanently dropped while the one-line warning is appended to the
error stream in the same producer step (synchronously, on the caller side
of the select). -/
theorem enqueue_never_blocks (cfg : LoggerCfg) (now : String) (s : Sys)
    (e : logEntry) (hp : s.panicked = false) (hc : s.closed = false) :
    (s.queue.length < channelCapacity →
      step cfg now s (.enq e)
        = { s with queue := s.queue ++ [e], accepted := s.accepted ++ [e] }) ∧
    (channelCapacity ≤ s.queue.length →
      step cfg now s (.enq e)
        = { s with stderrLines := s.stderrLines ++
            ["Warning: Logger channel full, dropping message: " ++ e.msg] }) :=
  ⟨fun hlen => step_enq_room cfg now s e hp hc hlen,
   fun hlen => step_enq_full cfg now s e hp hc (Nat.not_lt.mpr hlen)⟩

/-- A system whose queue is filled to capacity, for the witness of C2. -/
def fullSys : Sys :=
  { initSys with
      queue := List.replicate channelCapacity
        { level := .info, msg := "m", fields := [] } }

theorem enqueue_never_blocks_witness :
    fullSys.panicked = false ∧ fullSys.closed = false ∧
    ((fullSys.queue.length < channelCapacity →
        step defaultLoggerCfg "T" fullSys
            (.enq { level := .info, msg := "extra", fields := [] })
          = { fullSys with
                queue := fullSys.queue
                  ++ [{ level := .info, msg := "extra", fields := [] }],
                accepted := fullSys.accepted
                  ++ [{ level := .info, msg := "extra", fields := [] }] }) ∧
     (channelCapacity ≤ fullSys.queue.length →
        step defaultLoggerCfg "T" fullSys
            (.enq { level := .info, msg := "extra", fields := [] })
          = { fullSys with stderrLines := fullSys.stderrLines ++
              ["Warning: Logger channel full, dropping message: " ++ "extra"] })) :=
  ⟨rfl, rfl,
   enqueue_never_blocks defaultLoggerCfg "T" fullSys
     { level := .info, msg := "extra", fields := [] } rfl rfl⟩

/-- Claim C3: an entry strictly below the logger level yields no rendered
output on any sink, and the level comparison happens at render time, not
at enqueue time: the producer step accepts a below-level entry into the
queue exactly like any other entry, while `writeLog` discards it. -/
theorem level_filter_render_time (cfg : LoggerCfg) (now : String)
    (e : logEntry) (h : e.level.rank < cfg.level.rank) :
    writeLog cfg now e = [] ∧
    ∀ s : Sys, s.panicked = false → s.closed = false →
      s.queue.length < channelCapacity →
      step cfg now s (.enq e)
        = { s with queue := s.queue ++ [e], accepted := s.accepted ++ [e] } := by
  refine ⟨?_, fun s hp hc hlen => step_enq_room cfg now s e hp hc hlen⟩
  simp [writeLog, h]

/-- Logger at level Warn, for the witness of C3. -/
def cfgWarn : LoggerCfg := { defaultLoggerCfg with level := .warn }

/-- An Info entry, below Warn, for the witness of C3. -/
def entryInfo : logEntry := { level := .info, msg := "hidden", fields := [] }

theorem level_filter_render_time_witness :
    entryInfo.level.rank < cfgWarn.level.rank ∧
    (writeLog cfgWarn "T" entryInfo = [] ∧
     ∀ s : Sys, s.panicked = false → s.closed = false →
       s.queue.length < channelCapacity →
       step cfgWarn "T" s (.enq entryInfo)
         = { s with queue := s.queue ++ [entryInfo],
                    accepted := s.accepted ++ [entryInfo] }) :=
  ⟨by decide, level_filter_render_time cfgWarn "T" entryInfo (by decide)⟩

/-- Claim C4: accepted entries are rendered in strict FIFO order: in every
reachable state the processed entries followed by the still-queued ones
are exactly the accepted entries in acceptance order (so the render order
is a prefix of the acceptance order), and the writes are the `writeLog`
output of the processed entries in that order. -/
theorem accepted_rendered_fifo (cfg : LoggerCfg) (now : String)
    (as : List Action) :
    (run cfg now initSys as).processed ++ (run cfg now initSys as).queue
      = (run cfg now initSys as).accepted ∧
    (run cfg now initSys as).writes
      = (run cfg now initSys as).processed.foldl
          (fun acc e => acc ++ writeLog cfg now e) [] := by
  obtain ⟨h1, h2, _⟩ := sysInv_run cfg now initSys as (sysInv_init cfg now)
  exact ⟨h1, h2⟩

/-- Claim C10: after `Close` has returned, a leveled call on the Logger or
on any derived logger sharing its channel attempts to send on the closed
channel and panics: the producer step on a closed channel sets the panic
flag and neither enqueues the entry nor emits a drop diagnostic. -/
theorem log_after_close_panics (cfg : LoggerCfg) (now : String) (s : Sys)
    (e : logEntry) (hp : s.panicked = false) (hc : s.closed = true) :
    step cfg now s (.enq e) = { s with panicked := true } ∧
    (step cfg now s (.enq e)).panicked = true ∧
    (step cfg now s (.enq e)).stderrLines = s.stderrLines ∧
    (step cfg now s (.enq e)).queue = s.queue ∧
    (step cfg now s (.enq e)).accepted = s.accepted := by
  rw [step_enq_closed cfg now s e hp hc]
  exact ⟨rfl, rfl, rfl, rfl, rfl⟩

/-- A closed, drained system, for the witness of C10. -/
def closedSys : Sys := { initSys with closed := true, done := true }

theorem log_after_close_panics_witness :
    closedSys.panicked = false ∧ closedSys.closed = true ∧
    (step defaultLoggerCfg "T" closedSys
        (.enq { level := .error, msg := "late", fields := [] })
      = { closedSys with panicked := true } ∧
     (step defaultLoggerCfg "T" closedSys
        (.enq { level := .error, msg := "late", fields := [] })).panicked = true ∧
     (step defaultLoggerCfg "T" closedSys
        (.enq { level := .error, msg := "late", fields := [] })).stderrLines
       = closedSys.stderrLines ∧
     (step defaultLoggerCfg "T" closedSys
        (.enq { level := .error, msg := "late", fields := [] })).queue
       = closedSys.queue ∧
     (step defaultLoggerCfg "T" closedSys
        (.enq { level := .error, msg := "late", fields := [] })).accepted
       = closedSys.accepted) :=
  ⟨rfl, rfl,
   log_after_close_panics defaultLoggerCfg "T" closedSys
     { level := .error, msg := "late", fields := [] } rfl rfl⟩

theorem beq_false_symm (a b : String) (h : (a == b) = false) :
    (b == a) = false := by
  cases hb : (b == a) with
  | false => rfl
  | true =>
      have hba : b = a := eq_of_beq hb
      rw [hba] at h
      simp at h

/-- Logger with default field x = 1, for the C5 counterexample. -/
def cfgDupKey : LoggerCfg := { defaultLoggerCfg with fields := [("x", Value.int 1)] }

/-- Entry with per-call field x = 2, for the C5 counterexample. -/
def entryDupKey : logEntry := { level := .info, msg := "m", fields := [("x", Value.int 2)] }

/-- Counterexample to claim C5 as stated: the plain-text renderer of the
channel logger does not resolve duplicate keys at all. With default field
x = 1 and per-call field x = 2 the rendered record carries both an
`x: 1` line and an `x: 2` line, so the record does not show a single
merged x = 2 binding. -/
theorem duplicate_key_not_resolved_plaintext :
    (cfgDupKey.fields ++ entryDupKey.fields).map fieldLine = ["x: 1 ", "x: 2 "] ∧
    renderBody cfgDupKey "T" entryDupKey
      = "INFO: m\n      time: T\n      x: 1 \n      x: 2 " :=
  ⟨rfl, rfl⟩

/-- Claim C5, amended to the renderer that merges fields (the JSON logger
variant): in its merged record a per-call field overrides a default field
of the same key, and the system fields timestamp, level, message and
caller take precedence over any user-supplied field of the same name. -/
theorem json_merge_precedence (defaults fields : Fields) (ts lvl msg c : String)
    (k : String) (v : Value)
    (hk : Fields.lookup fields k = some v)
    (hnd : (fields.map Prod.fst).Nodup)
    (h1 : (k == "timestamp") = false) (h2 : (k == "level") = false)
    (h3 : (k == "message") = false) (h4 : (k == "caller") = false) :
    Fields.lookup (mergeLogFields defaults fields ts lvl msg (some c)) k = some v ∧
    Fields.lookup (mergeLogFields defaults fields ts lvl msg (some c)) "timestamp"
      = some (Value.str ts) ∧
    Fields.lookup (mergeLogFields defaults fields ts lvl msg (some c)) "level"
      = some (Value.str lvl) ∧
    Fields.lookup (mergeLogFields defaults fields ts lvl msg (some c)) "message"
      = some (Value.str msg) ∧
    Fields.lookup (mergeLogFields defaults fields ts lvl msg (some c)) "caller"
      = some (Value.str c) := by
  show Fields.lookup (Fields.set (Fields.set (Fields.set (Fields.set
        (Fields.mergeInto (Fields.mergeInto [] defaults) fields)
        "timestamp" (Value.str ts)) "level" (Value.str lvl))
        "message" (Value.str msg)) "caller" (Value.str c)) k = some v ∧ _
  refine ⟨?_, ?_, ?_, ?_, ?_⟩
  · rw [Fields.lookup_set_ne _ _ _ _ (beq_false_symm _ _ h4),
        Fields.lookup_set_ne _ _ _ _ (beq_false_symm _ _ h3),
        Fields.lookup_set_ne _ _ _ _ (beq_false_symm _ _ h2),
        Fields.lookup_set_ne _ _ _ _ (beq_false_symm _ _ h1)]
    exact Fields.lookup_mergeInto_mem _ _ _ _ hk hnd
  · show Fields.lookup (Fields.set (Fields.set (Fields.set (Fields.set
        (Fields.mergeInto (Fields.mergeInto [] defaults) fields)
        "timestamp" (Value.str ts)) "level" (Value.str lvl))
        "message" (Value.str msg)) "caller" (Value.str c)) "timestamp" = _
    rw [Fields.lookup_set_ne _ _ _ _ (by decide),
        Fields.lookup_set_ne _ _ _ _ (by decide),
        Fields.lookup_set_ne _ _ _ _ (by decide)]
    exact Fields.lookup_set_self _ _ _
  · show Fields.lookup (Fields.set (Fields.set (Fields.set (Fields.set
        (Fields.mergeInto (Fields.mergeInto [] defaults) fields)
        "timestamp" (Value.str ts)) "level" (Value.str lvl))
        "message" (Value.str msg)) "caller" (Value.str c)) "level" = _
    rw [Fields.lookup_set_ne _ _ _ _ (by decide),
        Fields.lookup_set_ne _ _ _ _ (by decide)]
    exact Fields.lookup_set_self _ _ _
  · show Fields.lookup (Fields.set (Fields.set (Fields.set (Fields.set
        (Fields.mergeInto (Fields.mergeInto [] defaults) fields)
        "timestamp" (Value.str ts)) "level" (Value.str lvl))
        "message" (Value.str msg)) "caller" (Value.str c)) "message" = _
    rw [Fields.lookup_set_ne _ _ _ _ (by decide)]
    exact Fields.lookup_set_self _ _ _
  · exact Fields.lookup_set_self _ _ _

theorem json_merge_precedence_witness :
    Fields.lookup [("x", Value.int 2)] "x" = some (Value.int 2) ∧
    (([("x", Value.int 2)] : Fields).map Prod.fst).Nodup ∧
    ("x" == "timestamp") = false ∧ ("x" == "level") = false ∧
    ("x" == "message") = false ∧ ("x" == "caller") = false ∧
    (Fields.lookup (mergeLogFields [("x", Value.int 1)] [("x", Value.int 2)]
        "T" "INFO" "m" (some "f.go:1")) "x" = some (Value.int 2) ∧
     Fields.lookup (mergeLogFields [("x", Value.int 1)] [("x", Value.int 2)]
        "T" "INFO" "m" (some "f.go:1")) "timestamp" = some (Value.str "T") ∧
     Fields.lookup (mergeLogFields [("x", Value.int 1)] [("x", Value.int 2)]
        "T" "INFO" "m" (some "f.go:1")) "level" = some (Value.str "INFO") ∧
     Fields.lookup (mergeLogFields [("x", Value.int 1)] [("x", Value.int 2)]
        "T" "INFO" "m" (some "f.go:1")) "message" = some (Value.str "m") ∧
     Fields.lookup (mergeLogFields [("x", Value.int 1)] [("x", Value.int 2)]
        "T" "INFO" "m" (some "f.go:1")) "caller" = some (Value.str "f.go:1")) :=
  ⟨by decide, by decide, by decide, by decide, by decide, by decide,
   json_merge_precedence [("x", Value.int 1)] [("x", Value.int 2)]
     "T" "INFO" "m" "f.go:1" "x" (Value.int 2)
     (by decide) (by decide) (by decide) (by decide) (by decide) (by decide)⟩

/-- Entry submitted through the derived logger in claim C6: `log` packs
only level, message and the per-call fields into the channel entry. -/
def entryViaDerived : logEntry := { level := .info, msg := "m", fields := [] }

/-- Claim C6, at its failing input: the derived logger
`d = parent.With(\x7b"a": 1\x7d)` does carry its own merged default
fields, and its entries do feed the shared queue; but the worker goroutine
started in `NewLogger` closes over the parent, so an entry logged through
`d` is rendered with the parent default fields and the `a: 1` line never
reaches a sink. Rendering with the configuration of `d`, as the claim
requires, would have produced a different record. -/
theorem derived_fields_ignored_by_worker :
    (defaultLoggerCfg.With [("a", Value.int 1)]).fields = [("a", Value.int 1)] ∧
    (run defaultLoggerCfg "T" initSys
        [.enq entryViaDerived, .closeChan, .work, .work]).accepted
      = [entryViaDerived] ∧
    (run defaultLoggerCfg "T" initSys
        [.enq entryViaDerived, .closeChan, .work, .work]).done = true ∧
    (run defaultLoggerCfg "T" initSys
        [.enq entryViaDerived, .closeChan, .work, .work]).writes
      = [(stdoutWriter, "\x1b[32mINFO: m\n      time: T\n\x1b[0m")] ∧
    renderBody (defaultLoggerCfg.With [("a", Value.int 1)]) "T" entryViaDerived
      = "INFO: m\n      time: T\n      a: 1 " ∧
    (run defaultLoggerCfg "T" initSys
        [.enq entryViaDerived, .closeChan, .work, .work]).writes
      ≠ writeLog (defaultLoggerCfg.With [("a", Value.int 1)]) "T" entryViaDerived := by
  refine ⟨rfl, rfl, rfl, rfl, rfl, ?_⟩
  decide

/-- Claim C7: `With` never mutates the parent default fields and no two
derived loggers share a mutable fields map: on the heap of field maps the
allocation performed by `With` leaves the parent map untouched (so a
record logged on the parent still excludes any key only the child added),
returns a fresh identity distinct from the parent, and a second `With`
returns yet another identity. -/
theorem with_no_shared_mutable_fields (h : FieldsHeap) (pid : Nat)
    (ov ov2 : Fields) (hp : pid < h.next) :
    ((h.withAlloc pid ov).1.store pid = h.store pid) ∧
    ((h.withAlloc pid ov).2 ≠ pid) ∧
    (((h.withAlloc pid ov).1.withAlloc pid ov2).2 ≠ (h.withAlloc pid ov).2) ∧
    (∀ k : String, Fields.lookup ((h.withAlloc pid ov).1.store pid) k
        = Fields.lookup (h.store pid) k) := by
  have hne : pid ≠ h.next := Nat.ne_of_lt hp
  refine ⟨?_, ?_, ?_, ?_⟩
  · show (fun i => if i = h.next then _ else h.store i) pid = h.store pid
    simp [hne]
  · exact Nat.ne_of_gt hp
  · show h.next + 1 ≠ h.next
    simp
  · intro k
    show Fields.lookup ((fun i => if i = h.next then _ else h.store i) pid) k
        = Fields.lookup (h.store pid) k
    simp [hne]

/-- A one-map heap whose map 0 is the parent fields, for the C7 witness. -/
def heapOne : FieldsHeap := { next := 1, store := fun _ => [] }

theorem with_no_shared_mutable_fields_witness :
    0 < heapOne.next ∧
    ((heapOne.withAlloc 0 [("a", Value.int 1)]).1.store 0 = heapOne.store 0 ∧
     (heapOne.withAlloc 0 [("a", Value.int 1)]).2 ≠ 0 ∧
     ((heapOne.withAlloc 0 [("a", Value.int 1)]).1.withAlloc 0 []).2
       ≠ (heapOne.withAlloc 0 [("a", Value.int 1)]).2 ∧
     (∀ k : String,
        Fields.lookup ((heapOne.withAlloc 0 [("a", Value.int 1)]).1.store 0) k
          = Fields.lookup (heapOne.store 0) k)) :=
  ⟨by decide,
   with_no_shared_mutable_fields heapOne 0 [("a", Value.int 1)] [] (by decide)⟩

/-- Global state with a configured logger (extra default field, custom
time format, queue 0), for the C8 counterexample. -/
def gConfigured : GlobalSt :=
  { current := some
      { cfg := { defaultLoggerCfg with
                   fields := [("a", Value.int 1)], timeFormat := "X" },
        queueId := 0 },
    nextQueue := 1 }

/-- Counterexample to claim C8 as stated: `SetLevel` does not write only
the level field. On a global logger with a default field, a custom time
format and queue 0, `SetLevel(Error)` leaves the level readable as Error
but resets the default fields and the time format to the constructor
defaults and binds a fresh queue. -/
theorem setLevel_discards_config :
    GetLevel (SetLevel gConfigured .error) = some .error ∧
    Option.map (fun l => l.cfg.fields) (SetLevel gConfigured .error).current
      = some [] ∧
    Option.map (fun l => l.cfg.fields) gConfigured.current
      = some [("a", Value.int 1)] ∧
    Option.map (fun l => l.cfg.fields) (SetLevel gConfigured .error).current
      ≠ Option.map (fun l => l.cfg.fields) gConfigured.current ∧
    Option.map (fun l => l.cfg.timeFormat) (SetLevel gConfigured .error).current
      ≠ Option.map (fun l => l.cfg.timeFormat) gConfigured.current ∧
    Option.map (fun l => l.queueId) (SetLevel gConfigured .error).current
      ≠ Option.map (fun l => l.queueId) gConfigured.current := by
  refine ⟨rfl, rfl, rfl, ?_, ?_, ?_⟩ <;> decide

/-- Claim C8, amended: `SetLevel(L)` replaces the whole global Logger with
a freshly constructed one whose level is L and whose sinks, default
fields, time format and queue are the constructor defaults on a fresh
channel; `GetLevel` then returns L. -/
theorem setLevel_replaces_logger (g : GlobalSt) (L : LoggerLevel) :
    SetLevel g L
      = { current := some { cfg := { defaultLoggerCfg with level := L },
                            queueId := g.nextQueue },
          nextQueue := g.nextQueue + 1 } ∧
    GetLevel (SetLevel g L) = some L :=
  ⟨rfl, rfl⟩

/-- Counterexample to claim C9 as stated: before any `Setup` the global
`defaultLogger` is nil, and a global leveled call dereferences it and
panics instead of delegating to a lazily created instance. -/
theorem global_log_before_setup_nil :
    globalTrace emptyGlobal "T" initSys "m" [] = none := rfl

/-- Claim C9, amended: `Setup` installs a non-nil instance, closing the
previous one exactly when it exists, on a fresh queue; a global leveled
call after any `Setup` reaches that instance; but there is no lazy
initialization: with `Setup` never called the global logger is nil and a
leveled call panics on the nil dereference. -/
theorem setup_swap_no_lazy_init (env : Env) (g : GlobalSt)
    (opts : List LoggerOption) :
    (Setup env g opts).1.current.isSome = true ∧
    (Setup env g opts).2 = g.current.isSome ∧
    (Setup env g opts).1.nextQueue = g.nextQueue + 1 ∧
    (∀ now s msg fs, (globalTrace (Setup env g opts).1 now s msg fs).isSome = true) ∧
    (∀ now s msg fs, globalTrace emptyGlobal now s msg fs = none) :=
  ⟨rfl, rfl, rfl, fun _ _ _ _ => rfl, fun _ _ _ _ => rfl⟩

end Bayaan
